import Mathlib

/-!
Verification of the batsim-py job lifecycle and monitor code.

This file shallowly embeds the parts of `src/batsim_py/jobs.py` and
`src/batsim_py/monitors.py` that the checked properties are about:

* the `Job` record with its engine-private mutable fields, its derived
  metrics, and the privileged transitions `_submit`, `_allocate`,
  `_reject`, `_start`, `_kill`, `_terminate`;
* the per-entity one-shot event registry used by `Job.__dispatch`;
* the accumulator state and event handlers of `SchedulerMonitor`,
  `HostMonitor`, `HostStateSwitchMonitor` and `ConsumedEnergyMonitor`.

Python floats are embedded as rationals (`ℚ`); all arithmetic the code
performs on them (add, sub, mul, div, max, comparisons) is exact here.
Python code that can raise on the modelled paths (KeyError on a dict
lookup, raising transitions) is embedded with `Option`/an error-carrying
result type.  Python dicts keyed by host id are embedded as association
lists; Python lists that are appended at the tail and read at index
`[-1]` are embedded as Lean lists in newest-first order, so the Python
`xs[-1]` is the Lean head.
-/

namespace BatsimPy

/-- Association-list lookup, embedding a Python dict read `d[k]`
(`none` is the KeyError case). -/
def dictGet {α : Type} (l : List (Nat × α)) (k : Nat) : Option α :=
  match l with
  | [] => none
  | (k2, v) :: t => if k2 = k then some v else dictGet t k

/-- Association-list update, embedding a Python dict write `d[k] = v`. -/
def dictSet {α : Type} (l : List (Nat × α)) (k : Nat) (v : α) : List (Nat × α) :=
  match l with
  | [] => [(k, v)]
  | (k2, v2) :: t => if k2 = k then (k, v) :: t else (k2, v2) :: dictSet t k v

/-- Job states, from `JobState` in jobs.py. -/
inductive JobState where
  | UNKNOWN
  | SUBMITTED
  | RUNNING
  | COMPLETED_SUCCESSFULLY
  | COMPLETED_FAILED
  | COMPLETED_WALLTIME_REACHED
  | COMPLETED_KILLED
  | REJECTED
  | ALLOCATED
deriving DecidableEq

/-- Job events, from `JobEvent` in events.py (the six kinds Job dispatches). -/
inductive JobEvent where
  | SUBMITTED
  | ALLOCATED
  | STARTED
  | COMPLETED
  | REJECTED
  | KILLED
deriving DecidableEq

/-- The Job record, from `Job.__init__` in jobs.py: the constructor
arguments the claims need plus the engine-private mutable fields
`state`, `allocation`, `start_time`, `stop_time`. -/
structure Job where
  res : Nat
  subtime : ℚ
  walltime : Option ℚ
  state : JobState := JobState.UNKNOWN
  allocation : Option (List Nat) := none
  start_time : Option ℚ := none
  stop_time : Option ℚ := none
deriving DecidableEq

/-- From `Job.is_running`. -/
def Job.is_running (j : Job) : Bool := j.state = JobState.RUNNING

/-- From `Job.is_runnable`. -/
def Job.is_runnable (j : Job) : Bool := j.state = JobState.ALLOCATED

/-- From `Job.is_finished`. -/
def Job.is_finished (j : Job) : Bool := j.stop_time ≠ none

/-- From `Job.waiting_time`. -/
def Job.waiting_time (j : Job) : Option ℚ :=
  match j.start_time with
  | none => none
  | some st => some (st - j.subtime)

/-- From `Job.runtime`. -/
def Job.runtime (j : Job) : Option ℚ :=
  match j.stop_time, j.start_time with
  | some sp, some st => some (sp - st)
  | _, _ => none

/-- From `Job.stretch`: waiting time over walltime when the walltime is
set, else over runtime when the runtime is defined. -/
def Job.stretch (j : Job) : Option ℚ :=
  match j.waiting_time with
  | none => none
  | some w =>
    match j.walltime with
    | some wt => some (w / wt)
    | none =>
      match j.runtime with
      | some r => some (w / r)
      | none => none

/-- From `Job.turnaround_time`. -/
def Job.turnaround_time (j : Job) : Option ℚ :=
  match j.waiting_time, j.runtime with
  | some w, some r => some (w + r)
  | _, _ => none

/-- From `Job.per_processor_slowdown`. -/
def Job.per_processor_slowdown (j : Job) : Option ℚ :=
  match j.turnaround_time, j.runtime with
  | some t, some r => some (max 1 (t / ((j.res : ℚ) * r)))
  | _, _ => none

/-- From `Job.slowdown`. -/
def Job.slowdown (j : Job) : Option ℚ :=
  match j.turnaround_time, j.runtime with
  | some t, some r => some (max 1 (t / r))
  | _, _ => none

/-- Outcome of a privileged transition.  `error` embeds a raised
`RuntimeError` and carries the job as it stands when the exception
propagates (so a transition that mutated before raising would be
visibly caught here); `ok` carries the updated job and the event the
transition dispatches as its final statement. -/
inductive TResult where
  | error (j : Job)
  | ok (j : Job) (ev : JobEvent)
deriving DecidableEq

/-- The job after the call, whether it raised or returned. -/
def TResult.jobAfter : TResult → Job
  | TResult.error j => j
  | TResult.ok j _ => j

/-- The events dispatched by the call (a raise propagates before
`Job.__dispatch` is reached, so the error case dispatches nothing). -/
def TResult.events : TResult → List JobEvent
  | TResult.error _ => []
  | TResult.ok _ ev => [ev]

/-- Whether the call raised. -/
def TResult.isError : TResult → Bool
  | TResult.error _ => true
  | TResult.ok _ _ => false

/-- From `Job._allocate`: raises when already allocated or when the
host list length differs from `res`; otherwise records the allocation,
sets the state to ALLOCATED and dispatches ALLOCATED. -/
def Job.allocate (j : Job) (hosts : List Nat) : TResult :=
  if j.allocation ≠ none then TResult.error j
  else if hosts.length ≠ j.res then TResult.error j
  else TResult.ok { j with allocation := some hosts, state := JobState.ALLOCATED }
    JobEvent.ALLOCATED

/-- From `Job._reject`: line 603 of jobs.py compares
`self.__state == JobState.REJECTED` instead of assigning, so no field
changes; the method then dispatches REJECTED. -/
def Job.reject (j : Job) : TResult :=
  TResult.ok j JobEvent.REJECTED

/-- From `Job._submit`: raises when the state is not UNKNOWN or the
subtime is negative; otherwise sets the state and subtime and
dispatches SUBMITTED. -/
def Job.submit (j : Job) (subtime : ℚ) : TResult :=
  if j.state ≠ JobState.UNKNOWN then TResult.error j
  else if subtime < 0 then TResult.error j
  else TResult.ok { j with state := JobState.SUBMITTED, subtime := subtime }
    JobEvent.SUBMITTED

/-- From `Job._kill`: raises when `start_time` is unset or the current
time precedes it; otherwise sets `stop_time`, moves to
COMPLETED_KILLED and dispatches KILLED.  Note the code checks only
`start_time`, not that the job is RUNNING. -/
def Job.kill (j : Job) (current_time : ℚ) : TResult :=
  match j.start_time with
  | none => TResult.error j
  | some st =>
    if current_time < st then TResult.error j
    else TResult.ok
      { j with stop_time := some current_time, state := JobState.COMPLETED_KILLED }
      JobEvent.KILLED

/-- From `Job._start`: raises when `start_time` is already set, the job
is not runnable, or the current time precedes the subtime; otherwise
sets `start_time`, moves to RUNNING and dispatches STARTED. -/
def Job.start (j : Job) (current_time : ℚ) : TResult :=
  if j.start_time ≠ none then TResult.error j
  else if ¬ j.is_runnable then TResult.error j
  else if current_time < j.subtime then TResult.error j
  else TResult.ok
    { j with start_time := some current_time, state := JobState.RUNNING }
    JobEvent.STARTED

/-- From `Job._terminate`: raises when `start_time` is unset, the
requested final state is not one of the three completion states, or
the current time precedes `start_time`; otherwise sets `stop_time`,
moves to the requested state and dispatches COMPLETED.  As in `_kill`,
only `start_time` is checked, not that the job is RUNNING. -/
def Job.terminate (j : Job) (current_time : ℚ) (state : JobState) : TResult :=
  match j.start_time with
  | none => TResult.error j
  | some st =>
    if state ≠ JobState.COMPLETED_SUCCESSFULLY ∧ state ≠ JobState.COMPLETED_FAILED ∧
        state ≠ JobState.COMPLETED_WALLTIME_REACHED then TResult.error j
    else if current_time < st then TResult.error j
    else TResult.ok { j with stop_time := some current_time, state := state }
      JobEvent.COMPLETED

/-- Labels for the privileged transitions, to quantify over sequences
of them. -/
inductive JobOp where
  | submit (subtime : ℚ)
  | allocate (hosts : List Nat)
  | start (t : ℚ)
  | kill (t : ℚ)
  | terminate (t : ℚ) (s : JobState)
deriving DecidableEq

/-- Apply one labelled privileged transition. -/
def Job.step (j : Job) (op : JobOp) : TResult :=
  match op with
  | JobOp.submit s => j.submit s
  | JobOp.allocate hs => j.allocate hs
  | JobOp.start t => j.start t
  | JobOp.kill t => j.kill t
  | JobOp.terminate t s => j.terminate t s

/-- Run a sequence of privileged transitions, keeping the job state a
raising call leaves behind. -/
def Job.run (j : Job) (ops : List JobOp) : Job :=
  ops.foldl (fun a op => (Job.step a op).jobAfter) j

/-- Whether a state is terminal COMPLETED_*. -/
def JobState.isCompleted : JobState → Bool
  | JobState.COMPLETED_SUCCESSFULLY => true
  | JobState.COMPLETED_FAILED => true
  | JobState.COMPLETED_WALLTIME_REACHED => true
  | JobState.COMPLETED_KILLED => true
  | _ => false

/-- Handler-slot lookup in the registry of one entity, keyed by event kind;
an absent kind is an empty slot. -/
def slotGet {H : Type} (l : List (JobEvent × List H)) (ev : JobEvent) : List H :=
  match l with
  | [] => []
  | (e, hs) :: t => if e = ev then hs else slotGet t ev

/-- Handler-slot replacement in the registry of one entity. -/
def slotSet {H : Type} (l : List (JobEvent × List H)) (ev : JobEvent) (hs : List H) :
    List (JobEvent × List H) :=
  match l with
  | [] => [(ev, hs)]
  | (e, hs2) :: t => if e = ev then (ev, hs) :: t else (e, hs2) :: slotSet t ev hs

/-- Modelled from the spec: the per-entity observer registry of §4.2.
The registration side lives in the dispatcher module of the repo and in the
pydispatch library, neither of which is under src/; only the dispatch
side (`Job.__dispatch` in jobs.py) is.  Handlers are kept per event
kind in registration order. -/
structure Registry (H : Type) where
  slots : List (JobEvent × List H)
deriving DecidableEq

/-- The handlers currently registered for one event kind, in
registration order. -/
def Registry.get {H : Type} (r : Registry H) (ev : JobEvent) : List H :=
  slotGet r.slots ev

/-- Modelled from the spec: `subscribe(handler, event_kind)` of §4.2,
backed by pydispatch connect, which appends the handler unless it is
already connected for that (sender, event kind) pair. -/
def Registry.subscribe {H : Type} [DecidableEq H] (r : Registry H) (h : H) (ev : JobEvent) :
    Registry H :=
  let cur := r.get ev
  if h ∈ cur then r else Registry.mk (slotSet r.slots ev (cur ++ [h]))

/-- From `Job.__dispatch` in jobs.py: send the event to every receiver
registered for this sender and event kind (pydispatch send invokes
them in registration order), then disconnect them all.  The first
component is the invocation sequence, the second the registry
afterwards. -/
def Registry.dispatch {H : Type} (r : Registry H) (ev : JobEvent) : List H × Registry H :=
  (r.get ev, Registry.mk (slotSet r.slots ev []))

/-- Host states, from `HostState` in resources.py (consumed by the
monitors). -/
inductive HostState where
  | IDLE
  | COMPUTING
  | SWITCHING_OFF
  | SWITCHING_ON
  | SLEEPING
deriving DecidableEq

/-- A host power state; the monitors under verification read only its
`id` and `watt_full` fields. -/
structure PowerState where
  id : Nat
  watt_full : ℚ
deriving DecidableEq

/-- The host view a monitor receives, from `Host` in resources.py:
`id`, instantaneous `power` (nullable), operational `state`, current
`pstate` (nullable). -/
structure Host where
  id : Nat
  power : Option ℚ
  state : HostState
  pstate : Option PowerState
deriving DecidableEq

/-- Whether energy drawn in a state counts as wasted in
`HostMonitor.__update_info`: the branches for IDLE, SWITCHING_OFF and
SWITCHING_ON set `energy_wasted = energy_consumption`; COMPUTING and
SLEEPING leave it 0. -/
def wasteful : HostState → Bool
  | HostState.IDLE => true
  | HostState.SWITCHING_OFF => true
  | HostState.SWITCHING_ON => true
  | HostState.COMPUTING => false
  | HostState.SLEEPING => false

/-- A `HostMonitor.__last_state` entry: `(t_start, power, state, pstate)`. -/
structure HMSnap where
  t_start : ℚ
  power : Option ℚ
  state : HostState
  pstate : Option PowerState
deriving DecidableEq

/-- The `HostMonitor.__info` accumulators. -/
structure HMInfo where
  time_idle : ℚ := 0
  time_computing : ℚ := 0
  time_switching_off : ℚ := 0
  time_switching_on : ℚ := 0
  time_sleeping : ℚ := 0
  consumed_joules : ℚ := 0
  energy_waste : ℚ := 0
  nb_switches : Nat := 0
  nb_computing_machines : Nat := 0
deriving DecidableEq

/-- The time bucket of `HMInfo` keyed by a host state, for stating the
attribution property. -/
def HMInfo.bucket (i : HMInfo) (s : HostState) : ℚ :=
  match s with
  | HostState.IDLE => i.time_idle
  | HostState.COMPUTING => i.time_computing
  | HostState.SWITCHING_OFF => i.time_switching_off
  | HostState.SWITCHING_ON => i.time_switching_on
  | HostState.SLEEPING => i.time_sleeping

/-- The `HostMonitor` state: per-host last snapshot plus accumulators. -/
structure HostMonitor where
  last_state : List (Nat × HMSnap)
  info : HMInfo
deriving DecidableEq

/-- From `HostMonitor.__on_simulation_begins`: snapshot every platform
host at the current time, zero the accumulators, record the platform
size. -/
def hmOnSimulationBegins (now : ℚ) (platform : List Host) : HostMonitor :=
  { last_state := platform.map (fun h => (h.id, HMSnap.mk now h.power h.state h.pstate))
    info := { nb_computing_machines := platform.length } }

/-- The nb_switches contribution of one `__update_info` call, from the
line `if h.pstate and pstate.id != h.pstate.id` of monitors.py: the
snapshot pstate id is read only when `h.pstate` is truthy, and reading
it from a `None` snapshot pstate raises there (`none` here). -/
def hmSwitchDelta (snap_pstate h_pstate : Option PowerState) : Option Nat :=
  match h_pstate with
  | none => some 0
  | some p2 =>
    match snap_pstate with
    | none => none
    | some p1 => some (if p1.id ≠ p2.id then 1 else 0)

/-- From `HostMonitor.__update_info`: attribute `now - t_start` to the
time bucket of the snapshot state, add `time_spent * (power or 0)` to
`consumed_joules`, add it to `energy_waste` in the IDLE /
SWITCHING_OFF / SWITCHING_ON branches, add the switch count delta,
then replace the snapshot with `(now, h.power, h.state, h.pstate)`.
`none` embeds the KeyError on a missing host id and the raise inside
`hmSwitchDelta`. -/
def hmUpdateInfo (m : HostMonitor) (now : ℚ) (h : Host) : Option HostMonitor :=
  match dictGet m.last_state h.id with
  | none => none
  | some s =>
    match hmSwitchDelta s.pstate h.pstate with
    | none => none
    | some d =>
      let time_spent := now - s.t_start
      let energy_consumption := time_spent * s.power.getD 0
      let bucketed : HMInfo × ℚ :=
        match s.state with
        | HostState.IDLE =>
          ({ m.info with time_idle := m.info.time_idle + time_spent }, energy_consumption)
        | HostState.COMPUTING =>
          ({ m.info with time_computing := m.info.time_computing + time_spent }, 0)
        | HostState.SWITCHING_OFF =>
          ({ m.info with time_switching_off := m.info.time_switching_off + time_spent },
            energy_consumption)
        | HostState.SWITCHING_ON =>
          ({ m.info with time_switching_on := m.info.time_switching_on + time_spent },
            energy_consumption)
        | HostState.SLEEPING =>
          ({ m.info with time_sleeping := m.info.time_sleeping + time_spent }, 0)
      some
        { last_state := dictSet m.last_state h.id (HMSnap.mk now h.power h.state h.pstate)
          info := { bucketed.1 with
            consumed_joules := bucketed.1.consumed_joules + energy_consumption
            energy_waste := bucketed.1.energy_waste + bucketed.2
            nb_switches := bucketed.1.nb_switches + d } }

/-- From `HostMonitor.__on_simulation_ends`: flush every platform host
through `__update_info` at the final time. -/
def hmOnSimulationEnds (m : HostMonitor) (now : ℚ) (platform : List Host) :
    Option HostMonitor :=
  match platform with
  | [] => some m
  | h :: t =>
    match hmUpdateInfo m now h with
    | none => none
    | some m2 => hmOnSimulationEnds m2 now t

/-- The `SchedulerMonitor.__info` accumulators. -/
structure SchedInfo where
  makespan : ℚ := 0
  max_slowdown : ℚ := 0
  max_stretch : ℚ := 0
  max_waiting_time : ℚ := 0
  max_turnaround_time : ℚ := 0
  mean_slowdown : ℚ := 0
  mean_pp_slowdown : ℚ := 0
  mean_stretch : ℚ := 0
  mean_waiting_time : ℚ := 0
  mean_turnaround_time : ℚ := 0
  nb_jobs : Nat := 0
  nb_jobs_finished : Nat := 0
  nb_jobs_killed : Nat := 0
  nb_jobs_rejected : Nat := 0
  nb_jobs_success : Nat := 0
deriving DecidableEq

/-- From `SchedulerMonitor.__on_simulation_ends`: record the makespan
and divide every running sum by `max(1, nb_jobs_finished)`. -/
def schedOnSimulationEnds (i : SchedInfo) (now : ℚ) : SchedInfo :=
  let nb_finished : ℚ := max 1 (i.nb_jobs_finished : ℚ)
  { i with
    makespan := now
    mean_waiting_time := i.mean_waiting_time / nb_finished
    mean_slowdown := i.mean_slowdown / nb_finished
    mean_pp_slowdown := i.mean_pp_slowdown / nb_finished
    mean_stretch := i.mean_stretch / nb_finished
    mean_turnaround_time := i.mean_turnaround_time / nb_finished }

/-- From `SchedulerMonitor.__on_job_completed`: a job that is not
finished is skipped; otherwise its metrics are added to the running
sums and maxima and the counters are bumped.  The metrics are `None`able
in Python, where adding `None` would raise, so the embedding returns
`none` when any of them is undefined. -/
def schedOnJobCompleted (i : SchedInfo) (now : ℚ) (sender : Job) : Option SchedInfo :=
  if ¬ sender.is_finished then some i
  else
    match sender.slowdown, sender.per_processor_slowdown, sender.stretch,
        sender.waiting_time, sender.turnaround_time with
    | some sd, some ppsd, some st, some wt, some tt =>
      some { i with
        makespan := now
        mean_slowdown := i.mean_slowdown + sd
        mean_pp_slowdown := i.mean_pp_slowdown + ppsd
        mean_stretch := i.mean_stretch + st
        mean_waiting_time := i.mean_waiting_time + wt
        mean_turnaround_time := i.mean_turnaround_time + tt
        max_waiting_time := max wt i.max_waiting_time
        max_stretch := max st i.max_stretch
        max_slowdown := max sd i.max_slowdown
        max_turnaround_time := max tt i.max_turnaround_time
        nb_jobs_finished := i.nb_jobs_finished + 1
        nb_jobs_success :=
          if sender.state = JobState.COMPLETED_SUCCESSFULLY then i.nb_jobs_success + 1
          else i.nb_jobs_success
        nb_jobs_killed :=
          if sender.state ≠ JobState.COMPLETED_SUCCESSFULLY ∧
              (sender.state = JobState.COMPLETED_KILLED ∨
               sender.state = JobState.COMPLETED_WALLTIME_REACHED ∨
               sender.state = JobState.COMPLETED_FAILED) then i.nb_jobs_killed + 1
          else i.nb_jobs_killed }
    | _, _, _, _, _ => none

/-- One row of the `HostStateSwitchMonitor` parallel series. -/
structure HSRow where
  time : ℚ
  nb_sleeping : ℤ
  nb_switching_on : ℤ
  nb_switching_off : ℤ
  nb_idle : ℤ
  nb_computing : ℤ
deriving DecidableEq

/-- The dict keys returned by
`HostStateSwitchMonitor.__get_key_from_state`. -/
inductive HSKey where
  | nb_sleeping
  | nb_switching_on
  | nb_switching_off
  | nb_idle
  | nb_computing
deriving DecidableEq

/-- From `HostStateSwitchMonitor.__get_key_from_state`. -/
def getKeyFromState : HostState → HSKey
  | HostState.IDLE => HSKey.nb_idle
  | HostState.COMPUTING => HSKey.nb_computing
  | HostState.SLEEPING => HSKey.nb_sleeping
  | HostState.SWITCHING_OFF => HSKey.nb_switching_off
  | HostState.SWITCHING_ON => HSKey.nb_switching_on

/-- Read one bucket of a row by key. -/
def HSRow.get (r : HSRow) (k : HSKey) : ℤ :=
  match k with
  | HSKey.nb_sleeping => r.nb_sleeping
  | HSKey.nb_switching_on => r.nb_switching_on
  | HSKey.nb_switching_off => r.nb_switching_off
  | HSKey.nb_idle => r.nb_idle
  | HSKey.nb_computing => r.nb_computing

/-- Add a delta to one bucket of a row by key. -/
def HSRow.add (r : HSRow) (k : HSKey) (d : ℤ) : HSRow :=
  match k with
  | HSKey.nb_sleeping => { r with nb_sleeping := r.nb_sleeping + d }
  | HSKey.nb_switching_on => { r with nb_switching_on := r.nb_switching_on + d }
  | HSKey.nb_switching_off => { r with nb_switching_off := r.nb_switching_off + d }
  | HSKey.nb_idle => { r with nb_idle := r.nb_idle + d }
  | HSKey.nb_computing => { r with nb_computing := r.nb_computing + d }

/-- The `HostStateSwitchMonitor` state.  `rows` is newest-first: the
Python `self.__info[k][-1]` is the head here. -/
structure HSSMonitor where
  last_host_state : List (Nat × HSKey)
  rows : List HSRow
deriving DecidableEq

/-- Helper of `HostStateSwitchMonitor.__on_simulation_begins`: count
every platform host into the initial row and remember its key. -/
def hssSeed (row : HSRow) (lhs : List (Nat × HSKey)) :
    List Host → HSRow × List (Nat × HSKey)
  | [] => (row, lhs)
  | h :: t =>
    hssSeed (row.add (getKeyFromState h.state) 1)
      (dictSet lhs h.id (getKeyFromState h.state)) t

/-- From `HostStateSwitchMonitor.__on_simulation_begins`: one seeded
row at the current time counting the hosts in each state. -/
def hssOnSimulationBegins (now : ℚ) (platform : List Host) : HSSMonitor :=
  let seeded := hssSeed (HSRow.mk now 0 0 0 0 0) [] platform
  { last_host_state := seeded.2, rows := [seeded.1] }

/-- From `HostStateSwitchMonitor.__on_host_state_changed`: when the
last recorded timestamp differs from the current time, append a copy
of the last row and stamp it with the current time; then decrement the
old bucket of the sender and increment its new bucket on the last row, and
remember the new key.  `none` embeds the IndexError of reading `[-1]`
from an empty series and the KeyError of an unknown sender. -/
def hssOnHostStateChanged (m : HSSMonitor) (now : ℚ) (sender : Host) : Option HSSMonitor :=
  match m.rows with
  | [] => none
  | last :: rest =>
    let rows1 :=
      if last.time ≠ now then { last with time := now } :: last :: rest
      else last :: rest
    match dictGet m.last_host_state sender.id, rows1 with
    | some old_key, r :: rs =>
      let new_key := getKeyFromState sender.state
      some
        { last_host_state := dictSet m.last_host_state sender.id new_key
          rows := ((r.add old_key (-1)).add new_key 1) :: rs }
    | _, _ => none

/-- A `ConsumedEnergyMonitor.__last_state` entry: `(t_start, power, pstate)`. -/
structure CESnap where
  t_start : ℚ
  power : Option ℚ
  pstate : Option PowerState
deriving DecidableEq

/-- The `ConsumedEnergyMonitor` state.  The series lists are
newest-first: the Python read of the energy series at index -1 is the head. -/
structure CEMonitor where
  last_state : List (Nat × CESnap)
  time : List ℚ
  energy : List ℚ
  event_type : List String
  wattmin : List ℚ
  epower : List ℚ
deriving DecidableEq

/-- The `ConsumedEnergyMonitor.POWER_STATE_TYPE` tag. -/
def POWER_STATE_TYPE : String := "p"

/-- The `ConsumedEnergyMonitor.JOB_STARTED_TYPE` tag. -/
def JOB_STARTED_TYPE : String := "s"

/-- The `ConsumedEnergyMonitor.JOB_COMPLETED_TYPE` tag. -/
def JOB_COMPLETED_TYPE : String := "e"

/-- From `ConsumedEnergyMonitor.__on_simulation_begins`: empty series
and one snapshot per platform host at the current time. -/
def ceOnSimulationBegins (now : ℚ) (platform : List Host) : CEMonitor :=
  { last_state := platform.map (fun h => (h.id, CESnap.mk now h.power h.pstate))
    time := [], energy := [], event_type := [], wattmin := [], epower := [] }

/-- The per-host loop of `ConsumedEnergyMonitor.__update_info`: for
every platform host, add the snapshot wattage to `epower`, add
`wattage * (t_now - t_start)` to the consumed energy, add the snapshot
nameplate wattage of the snapshot pstate to `wattmin`, and replace the snapshot with
`(t_now, h.power, h.pstate)`.  `none` embeds the KeyError on an
unknown host id. -/
def ceFoldHosts (now : ℚ) (hs : List Host) (ls : List (Nat × CESnap)) (ce wm ep : ℚ) :
    Option (List (Nat × CESnap) × ℚ × ℚ × ℚ) :=
  match hs with
  | [] => some (ls, ce, wm, ep)
  | h :: t =>
    match dictGet ls h.id with
    | none => none
    | some s =>
      let wattage := s.power.getD 0
      ceFoldHosts now t (dictSet ls h.id (CESnap.mk now h.power h.pstate))
        (ce + wattage * (now - s.t_start))
        (wm + (match s.pstate with | some p => p.watt_full | none => 0))
        (ep + wattage)

/-- From `ConsumedEnergyMonitor.__update_info`: run the per-host loop,
carry the previous cumulative energy forward into the new total, and
append one row to every series. -/
def ceUpdateInfo (m : CEMonitor) (now : ℚ) (platform : List Host) (tag : String) :
    Option CEMonitor :=
  match ceFoldHosts now platform m.last_state 0 0 0 with
  | none => none
  | some (ls, ce, wm, ep) =>
    let ce2 := ce + m.energy.headD 0
    some
      { last_state := ls
        time := now :: m.time
        energy := ce2 :: m.energy
        event_type := tag :: m.event_type
        wattmin := wm :: m.wattmin
        epower := ep :: m.epower }

/-- One event the `ConsumedEnergyMonitor` handlers react to: the
simulated time and platform view at that moment, and the tag the
handler passes (`JOB_STARTED_TYPE`, `JOB_COMPLETED_TYPE` or
`POWER_STATE_TYPE`; the handlers ignore which entity was the sender
and always walk the whole platform). -/
structure CEEvent where
  time : ℚ
  platform : List Host
  tag : String
deriving DecidableEq

/-- Feed a sequence of events through
`ConsumedEnergyMonitor.__update_info`. -/
def ceRun (m : CEMonitor) : List CEEvent → Option CEMonitor
  | [] => some m
  | e :: es =>
    match ceUpdateInfo m e.time e.platform e.tag with
    | none => none
    | some m2 => ceRun m2 es

/-- The invariant the energy-monotonicity argument carries: every
snapshot was taken no later than `t` and records a nonnegative
wattage. -/
def ceSnapInv (ls : List (Nat × CESnap)) (t : ℚ) : Prop :=
  ∀ p ∈ ls, p.2.t_start ≤ t ∧ 0 ≤ p.2.power.getD 0

/-- Per-host energy accrued since the last snapshot, summed over the
platform, for stating what one `__update_info` call adds. -/
def ceEnergyDelta (now : ℚ) (platform : List Host) (ls : List (Nat × CESnap)) : ℚ :=
  (platform.map (fun h =>
    match dictGet ls h.id with
    | some s => s.power.getD 0 * (now - s.t_start)
    | none => 0)).sum

/-- A fresh job used for concrete runs: one requested host, submission
time 0, no walltime. -/
def c1Job : Job := { res := 1, subtime := 0, walltime := none }

/-- The transition sequence submit, allocate, start, then a successful
termination at time 1. -/
def c1Trace : List JobOp :=
  [JobOp.submit 0, JobOp.allocate [0], JobOp.start 0,
   JobOp.terminate 1 JobState.COMPLETED_SUCCESSFULLY]

/-- A registry over natural-number handlers with handlers 1 and 2
already subscribed for SUBMITTED, for the dispatch witness. -/
def c3Reg : Registry Nat := Registry.mk [(JobEvent.SUBMITTED, [1, 2])]

/-- A host drawing 100 W that the monitor first sees COMPUTING. -/
def c4HostComputing : Host := Host.mk 0 (some 100) HostState.COMPUTING none

/-- The same host after it switched to IDLE, still drawing 100 W. -/
def c4HostIdle : Host := Host.mk 0 (some 100) HostState.IDLE none

/-- HostMonitor state right after SIMULATION_BEGINS at time 0 on the
one-host platform. -/
def c4m0 : HostMonitor := hmOnSimulationBegins 0 [c4HostComputing]

/-- The snapshot `c4m0` holds for host 0. -/
def c4s0 : HMSnap := HMSnap.mk 0 (some 100) HostState.COMPUTING none

/-- HostMonitor state after the state-change event at time 10. -/
def c4m1 : HostMonitor :=
  { last_state := [(0, HMSnap.mk 10 (some 100) HostState.IDLE none)]
    info := { time_computing := 10, consumed_joules := 1000, nb_computing_machines := 1 } }

/-- The full HostMonitor scenario: begin at t=0 with the host
COMPUTING at 100 W, host event at t=10 with the host now IDLE, then
SIMULATION_ENDS at t=15 flushing the host. -/
def c4Final : Option HostMonitor :=
  (hmUpdateInfo c4m0 10 c4HostIdle).bind (fun m => hmOnSimulationEnds m 15 [c4HostIdle])

/-- The expected HostMonitor state at the end of the C4 scenario. -/
def c4m2 : HostMonitor :=
  { last_state := [(0, HMSnap.mk 15 (some 100) HostState.IDLE none)]
    info := { time_computing := 10
              time_idle := 5
              consumed_joules := 1500
              energy_waste := 500
              nb_computing_machines := 1 } }

/-- A finished job for the SchedulerMonitor scenario: submitted at 0,
started at `w` (so its waiting time is `w`), stopped 2 seconds later. -/
def c5Job (w : ℚ) : Job :=
  { res := 1, subtime := 0, walltime := none, state := JobState.COMPLETED_SUCCESSFULLY,
    allocation := some [0], start_time := some w, stop_time := some (w + 2) }

/-- The SchedulerMonitor scenario: three completed jobs with waiting
times 2, 4, 6 and runtimes 2, 2, 2, then SIMULATION_ENDS at t=20. -/
def c5Final : Option SchedInfo :=
  (schedOnJobCompleted {} 10 (c5Job 2)).bind (fun i1 =>
    (schedOnJobCompleted i1 10 (c5Job 4)).bind (fun i2 =>
      (schedOnJobCompleted i2 10 (c5Job 6)).map (fun i3 => schedOnSimulationEnds i3 20)))

/-- HostStateSwitchMonitor state after SIMULATION_BEGINS at time 0
with two IDLE hosts. -/
def c6m0 : HSSMonitor :=
  hssOnSimulationBegins 0 [Host.mk 0 none HostState.IDLE none, Host.mk 1 none HostState.IDLE none]

/-- The HostStateSwitchMonitor scenario: both hosts switch to
COMPUTING at the same timestamp 5. -/
def c6Final : Option HSSMonitor :=
  (hssOnHostStateChanged c6m0 5 (Host.mk 0 none HostState.COMPUTING none)).bind
    (fun m => hssOnHostStateChanged m 5 (Host.mk 1 none HostState.COMPUTING none))

/-- A host drawing 2 W for the energy-monitor witness. -/
def c7Host : Host := Host.mk 0 (some 2) HostState.COMPUTING none

/-- ConsumedEnergyMonitor state after SIMULATION_BEGINS at time 0 on
the one-host platform. -/
def c7m0 : CEMonitor := ceOnSimulationBegins 0 [c7Host]

/-- ConsumedEnergyMonitor state after a job-started event at time 3:
the host drew 2 W for 3 seconds. -/
def c7m1 : CEMonitor :=
  { last_state := [(0, CESnap.mk 3 (some 2) none)]
    time := [3]
    energy := [6]
    event_type := [JOB_STARTED_TYPE]
    wattmin := [0]
    epower := [2] }

/-- A job already submitted, to exhibit a raising `_submit`. -/
def c10Job : Job := { res := 1, subtime := 0, walltime := none, state := JobState.SUBMITTED }

/-- An allocated job about to run, for the slowdown and allocate
witnesses: res 2, submitted at 0, started at 2, stopped at 5. -/
def c9Job : Job :=
  { res := 2, subtime := 0, walltime := none, state := JobState.COMPLETED_SUCCESSFULLY,
    allocation := some [0, 1], start_time := some 2, stop_time := some 5 }

/-- A fresh two-resource job for the allocate witness. -/
def c8Job : Job := { res := 2, subtime := 0, walltime := none }

/-- A raising transition returns the input job untouched: in every
privileged transition of jobs.py all precondition checks precede all
assignments, so the error branch of the embedding carries the
unmodified job. -/
theorem step_error_eq (j : Job) (op : JobOp) (h : (j.step op).isError = true) :
    j.step op = TResult.error j := by
  cases op with
  | submit s =>
    simp only [Job.step, Job.submit] at h ⊢
    split_ifs at h ⊢ <;> simp_all [TResult.isError]
  | allocate hs =>
    simp only [Job.step, Job.allocate] at h ⊢
    split_ifs at h ⊢ <;> simp_all [TResult.isError]
  | start t =>
    simp only [Job.step, Job.start] at h ⊢
    split_ifs at h ⊢ <;> simp_all [TResult.isError]
  | kill t =>
    simp only [Job.step, Job.kill] at h ⊢
    cases hst : j.start_time with
    | none => rfl
    | some st =>
      rw [hst] at h
      by_cases hlt : t < st
      · simp [hlt]
      · simp [hlt, TResult.isError] at h
  | terminate t s =>
    simp only [Job.step, Job.terminate] at h ⊢
    cases hst : j.start_time with
    | none => rfl
    | some st =>
      rw [hst] at h
      by_cases hbad : s ≠ JobState.COMPLETED_SUCCESSFULLY ∧ s ≠ JobState.COMPLETED_FAILED
          ∧ s ≠ JobState.COMPLETED_WALLTIME_REACHED
      · simp [hbad]
      · by_cases hlt : t < st
        · simp [hbad, hlt]
        · simp [hbad, hlt, TResult.isError] at h

/-- Claim C1 (refuted by the code, which contradicts the docstrings of
`_kill` and `_terminate`): after submit(0), allocate, start(0) and
terminate(1, COMPLETED_SUCCESSFULLY) the job is in a terminal
COMPLETED state with stop_time 1, yet `_kill(2)` does not raise: it
overwrites stop_time with 2 and moves the terminal
COMPLETED_SUCCESSFULLY state to COMPLETED_KILLED, because `_kill`
checks only that `start_time` is set, never that the job is still
RUNNING. -/
theorem kill_overwrites_terminal :
    JobState.isCompleted (Job.run c1Job c1Trace).state = true
    ∧ (Job.run c1Job c1Trace).stop_time = some 1
    ∧ ((Job.run c1Job c1Trace).step (JobOp.kill 2)).isError = false
    ∧ ((Job.run c1Job c1Trace).step (JobOp.kill 2)).jobAfter.stop_time = some 2
    ∧ ((Job.run c1Job c1Trace).step (JobOp.kill 2)).jobAfter.state
        = JobState.COMPLETED_KILLED := by
  decide

/-- Claim C2: `_reject` never raises, dispatches exactly the REJECTED
event, and leaves the job record (state, allocation, start_time,
stop_time, subtime and all other fields) unchanged, because line 603
of jobs.py compares the state with REJECTED instead of assigning it. -/
theorem reject_frame (j : Job) :
    (j.reject).isError = false
    ∧ (j.reject).events = [JobEvent.REJECTED]
    ∧ (j.reject).jobAfter = j :=
  ⟨rfl, rfl, rfl⟩

/-- Claim C8: `_allocate(hosts)` raises exactly when the job is
already allocated or the host count differs from `res`; on success it
stores the allocation (whose length then equals `res`), moves to
ALLOCATED whatever the previous state was, dispatches ALLOCATED, and
any second `_allocate` raises. -/
theorem allocate_spec (j : Job) (hosts hosts2 : List Nat) :
    ((j.allocate hosts).isError = true ↔ j.allocation ≠ none ∨ hosts.length ≠ j.res)
    ∧ ((j.allocate hosts).isError = false →
        j.allocate hosts
          = TResult.ok { j with allocation := some hosts, state := JobState.ALLOCATED }
              JobEvent.ALLOCATED
        ∧ Option.map List.length (j.allocate hosts).jobAfter.allocation = some j.res
        ∧ ((j.allocate hosts).jobAfter.allocate hosts2).isError = true) := by
  by_cases h1 : j.allocation = none
  · by_cases h2 : hosts.length = j.res
    · have heq : j.allocate hosts
          = TResult.ok { j with allocation := some hosts, state := JobState.ALLOCATED }
              JobEvent.ALLOCATED := by
        simp [Job.allocate, h1, h2]
      refine ⟨?_, fun _ => ⟨heq, ?_, ?_⟩⟩
      · simp [heq, TResult.isError, h1, h2]
      · simp [heq, TResult.jobAfter, h2]
      · rw [heq]
        simp [TResult.jobAfter, Job.allocate, TResult.isError]
    · have heq : j.allocate hosts = TResult.error j := by
        simp [Job.allocate, h1, h2]
      refine ⟨?_, fun hfalse => ?_⟩
      · simp [heq, TResult.isError, h2]
      · rw [heq] at hfalse
        simp [TResult.isError] at hfalse
  · have heq : j.allocate hosts = TResult.error j := by
      simp [Job.allocate, h1]
    refine ⟨?_, fun hfalse => ?_⟩
    · simp [heq, TResult.isError, h1]
    · rw [heq] at hfalse
      simp [TResult.isError] at hfalse

/-- Witness for C8 at a fresh job with res 2 and hosts [3, 4]. -/
theorem allocate_spec_witness :
    ((c8Job.allocate [3, 4]).isError = true
      ↔ c8Job.allocation ≠ none ∨ [3, 4].length ≠ c8Job.res)
    ∧ (c8Job.allocate [3, 4]
        = TResult.ok { c8Job with allocation := some [3, 4], state := JobState.ALLOCATED }
            JobEvent.ALLOCATED
      ∧ Option.map List.length (c8Job.allocate [3, 4]).jobAfter.allocation = some c8Job.res
      ∧ ((c8Job.allocate [3, 4]).jobAfter.allocate [9]).isError = true) :=
  ⟨(allocate_spec c8Job [3, 4] [9]).1, (allocate_spec c8Job [3, 4] [9]).2 (by decide)⟩

/-- Claim C9: for a job with both timestamps set and positive runtime
(and, per the data model, a positive resource request, without which
the Python per-processor division would divide by zero), `slowdown`
and `per_processor_slowdown` are defined by the max-with-1 formulas of
jobs.py and are therefore never below 1. -/
theorem slowdown_spec (j : Job) (st sp : ℚ)
    (h1 : j.start_time = some st) (h2 : j.stop_time = some sp)
    (h3 : st < sp) (hres : 0 < j.res) :
    j.slowdown = some (max 1 ((st - j.subtime + (sp - st)) / (sp - st)))
    ∧ j.per_processor_slowdown
        = some (max 1 ((st - j.subtime + (sp - st)) / ((j.res : ℚ) * (sp - st))))
    ∧ 1 ≤ (j.slowdown).getD 0
    ∧ 1 ≤ (j.per_processor_slowdown).getD 0 := by
  have hw : j.waiting_time = some (st - j.subtime) := by
    simp [Job.waiting_time, h1]
  have hr : j.runtime = some (sp - st) := by
    simp [Job.runtime, h1, h2]
  have ht : j.turnaround_time = some (st - j.subtime + (sp - st)) := by
    simp [Job.turnaround_time, hw, hr]
  have hs : j.slowdown = some (max 1 ((st - j.subtime + (sp - st)) / (sp - st))) := by
    simp [Job.slowdown, ht, hr]
  have hp : j.per_processor_slowdown
      = some (max 1 ((st - j.subtime + (sp - st)) / ((j.res : ℚ) * (sp - st)))) := by
    simp [Job.per_processor_slowdown, ht, hr]
  refine ⟨hs, hp, ?_, ?_⟩
  · rw [hs]
    simp only [Option.getD_some]
    exact le_max_left 1 _
  · rw [hp]
    simp only [Option.getD_some]
    exact le_max_left 1 _

/-- Witness for C9 at a job with subtime 0, start 2, stop 5, res 2. -/
theorem slowdown_spec_witness :
    c9Job.slowdown = some (max 1 (((2 : ℚ) - c9Job.subtime + (5 - 2)) / (5 - 2)))
    ∧ c9Job.per_processor_slowdown
        = some (max 1 (((2 : ℚ) - c9Job.subtime + (5 - 2)) / ((c9Job.res : ℚ) * (5 - 2))))
    ∧ 1 ≤ (c9Job.slowdown).getD 0
    ∧ 1 ≤ (c9Job.per_processor_slowdown).getD 0 :=
  slowdown_spec c9Job 2 5 (by decide) (by decide) (by decide) (by decide)

/-- Claim C10: whenever a privileged transition raises, the job keeps
every prior field value and no event is dispatched. -/
theorem failed_transition_frame (j : Job) (op : JobOp)
    (h : (j.step op).isError = true) :
    (j.step op).jobAfter = j ∧ (j.step op).events = [] := by
  rw [step_error_eq j op h]
  exact ⟨rfl, rfl⟩

/-- Witness for C10: submitting an already submitted job raises and
changes nothing. -/
theorem failed_transition_frame_witness :
    (c10Job.step (JobOp.submit 0)).jobAfter = c10Job
    ∧ (c10Job.step (JobOp.submit 0)).events = [] :=
  failed_transition_frame c10Job (JobOp.submit 0) (by decide)

/-- Reading the slot just written gives back exactly what was written. -/
theorem slotGet_slotSet {H : Type} (l : List (JobEvent × List H)) (ev : JobEvent)
    (hs : List H) : slotGet (slotSet l ev hs) ev = hs := by
  induction l with
  | nil => simp [slotSet, slotGet]
  | cons p t ih =>
    obtain ⟨e, v⟩ := p
    by_cases he : e = ev
    · subst he
      simp [slotSet, slotGet]
    · simp [slotSet, slotGet, he, ih]

/-- Claim C3: dispatching an event kind invokes every handler
currently registered for that (sender, event kind) pair exactly once,
in registration order, and then clears that registry slot, so a
handler subscribed after the dispatch is invoked only on the next
dispatch of that kind, never retroactively. -/
theorem dispatch_once (H : Type) [DecidableEq H] (r : Registry H) (ev : JobEvent) (h g : H)
    (hnd : (r.get ev).Nodup) (hmem : h ∈ r.get ev) (hg : g ∉ r.get ev) :
    (r.dispatch ev).1 = r.get ev
    ∧ List.count h (r.dispatch ev).1 = 1
    ∧ (r.dispatch ev).2.get ev = []
    ∧ g ∉ (r.dispatch ev).1
    ∧ (((r.dispatch ev).2.subscribe g ev).dispatch ev).1 = [g] := by
  refine ⟨rfl, List.count_eq_one_of_mem hnd hmem, slotGet_slotSet r.slots ev [], hg, ?_⟩
  have hget : Registry.get (Registry.mk (slotSet r.slots ev [])) ev = [] :=
    slotGet_slotSet r.slots ev []
  simp [Registry.dispatch, Registry.subscribe, Registry.get, hget, slotGet_slotSet]

/-- Witness for C3 on a registry with handlers 1 and 2 registered for
SUBMITTED and handler 3 subscribed after the dispatch. -/
theorem dispatch_once_witness :
    (c3Reg.dispatch JobEvent.SUBMITTED).1 = c3Reg.get JobEvent.SUBMITTED
    ∧ List.count 1 (c3Reg.dispatch JobEvent.SUBMITTED).1 = 1
    ∧ (c3Reg.dispatch JobEvent.SUBMITTED).2.get JobEvent.SUBMITTED = []
    ∧ 3 ∉ (c3Reg.dispatch JobEvent.SUBMITTED).1
    ∧ (((c3Reg.dispatch JobEvent.SUBMITTED).2.subscribe 3 JobEvent.SUBMITTED).dispatch
        JobEvent.SUBMITTED).1 = [3] :=
  dispatch_once Nat c3Reg JobEvent.SUBMITTED 1 3 (by decide) (by decide) (by decide)

/-- Claim C5: on SIMULATION_ENDS every running sum is divided by
max(1, nb_jobs_finished) — a divisor that is always positive, so no
division by zero occurs even when no job finished — and makespan is
set to the final current time; the three-job scenario with waiting
times 2, 4, 6 and runtimes 2, 2, 2 ends with mean_stretch 2,
max_stretch 3 and nb_jobs_finished 3. -/
theorem sched_ends_spec (i : SchedInfo) (now : ℚ) :
    0 < max 1 ((i.nb_jobs_finished : ℚ))
    ∧ schedOnSimulationEnds i now
        = { i with
            makespan := now
            mean_waiting_time := i.mean_waiting_time / max 1 (i.nb_jobs_finished : ℚ)
            mean_slowdown := i.mean_slowdown / max 1 (i.nb_jobs_finished : ℚ)
            mean_pp_slowdown := i.mean_pp_slowdown / max 1 (i.nb_jobs_finished : ℚ)
            mean_stretch := i.mean_stretch / max 1 (i.nb_jobs_finished : ℚ)
            mean_turnaround_time := i.mean_turnaround_time / max 1 (i.nb_jobs_finished : ℚ) }
    ∧ c5Final.map SchedInfo.mean_stretch = some 2
    ∧ c5Final.map SchedInfo.max_stretch = some 3
    ∧ c5Final.map SchedInfo.nb_jobs_finished = some 3 := by
  refine ⟨lt_of_lt_of_le zero_lt_one (le_max_left 1 _), rfl, ?_, ?_, ?_⟩ <;>
    simp [c5Final, c5Job, schedOnJobCompleted, schedOnSimulationEnds, Job.slowdown,
      Job.per_processor_slowdown, Job.stretch, Job.waiting_time, Job.runtime,
      Job.turnaround_time, Job.is_finished, max_def] <;>
    norm_num

/-- Claim C4: on every host event and at SIMULATION_ENDS (which
flushes every host through the same update), the elapsed time
now - t_start is attributed to the time bucket of the previous
snapshot state, elapsed × (power or 0) is added to consumed_joules,
and that energy is added to energy_waste iff the previous state was
IDLE, SWITCHING_OFF or SWITCHING_ON; the 100 W scenario (COMPUTING
from 0 to 10, IDLE from 10 to 15, flushed by SIMULATION_ENDS at 15)
yields time_computing 10, time_idle 5, consumed_joules 1500 and
energy_waste 500. -/
theorem host_monitor_spec (m : HostMonitor) (now : ℚ) (h : Host) (s : HMSnap)
    (m2 : HostMonitor)
    (hlook : dictGet m.last_state h.id = some s)
    (hupd : hmUpdateInfo m now h = some m2) :
    m2.info.bucket s.state = m.info.bucket s.state + (now - s.t_start)
    ∧ (∀ st2, st2 ≠ s.state → m2.info.bucket st2 = m.info.bucket st2)
    ∧ m2.info.consumed_joules
        = m.info.consumed_joules + (now - s.t_start) * s.power.getD 0
    ∧ m2.info.energy_waste
        = m.info.energy_waste
          + (if wasteful s.state then (now - s.t_start) * s.power.getD 0 else 0)
    ∧ c4Final.map (fun mf =>
        (mf.info.time_computing, mf.info.time_idle, mf.info.consumed_joules,
          mf.info.energy_waste)) = some (10, 5, 1500, 500) := by
  have h1 : hmUpdateInfo c4m0 10 c4HostIdle = some c4m1 := by
    norm_num [hmUpdateInfo, c4m0, c4m1, c4HostIdle, c4HostComputing, hmOnSimulationBegins,
      dictGet, dictSet, hmSwitchDelta]
  have h2 : hmOnSimulationEnds c4m1 15 [c4HostIdle] = some c4m2 := by
    norm_num [hmOnSimulationEnds, hmUpdateInfo, c4m1, c4m2, c4HostIdle, dictGet, dictSet,
      hmSwitchDelta]
  have hc : c4Final.map (fun mf =>
      (mf.info.time_computing, mf.info.time_idle, mf.info.consumed_joules,
        mf.info.energy_waste)) = some (10, 5, 1500, 500) := by
    simp [c4Final, h1, h2, c4m2]
  obtain ⟨ts, pw, sst, sps⟩ := s
  simp only [hmUpdateInfo, hlook] at hupd
  cases hd : hmSwitchDelta sps h.pstate with
  | none =>
    rw [hd] at hupd
    simp at hupd
  | some d =>
    rw [hd] at hupd
    cases sst <;>
    · simp only [Option.some_inj] at hupd
      subst hupd
      refine ⟨by simp [HMInfo.bucket], ?_, by simp, by simp [wasteful], hc⟩
      intro st2 hne
      cases st2 <;> simp_all [HMInfo.bucket]

/-- Witness for C4 at the 100 W host observed COMPUTING from 0 and
updated at time 10 after it became IDLE. -/
theorem host_monitor_spec_witness :
    c4m1.info.bucket c4s0.state = c4m0.info.bucket c4s0.state + (10 - c4s0.t_start)
    ∧ c4m1.info.bucket HostState.IDLE = c4m0.info.bucket HostState.IDLE
    ∧ c4m1.info.consumed_joules
        = c4m0.info.consumed_joules + (10 - c4s0.t_start) * c4s0.power.getD 0 := by
  have happ := host_monitor_spec c4m0 10 c4HostIdle c4s0 c4m1 (by decide)
    (by norm_num [hmUpdateInfo, c4m0, c4m1, c4HostIdle, c4HostComputing,
      hmOnSimulationBegins, dictGet, dictSet, hmSwitchDelta])
  exact ⟨happ.1, happ.2.1 HostState.IDLE (by decide), happ.2.2.1⟩

/-- Claim C6: on each host state change, if the last recorded
timestamp equals the current time the last row is mutated in place
(old-state bucket decremented, new-state bucket incremented, no row
appended); otherwise exactly one new row is appended that starts as a
copy of the previous row before the same decrement and increment — so
two transitions at the same fresh timestamp produce one appended row
reflecting both deltas, not two rows. -/
theorem hss_spec (m : HSSMonitor) (now : ℚ) (sender : Host) (last : HSRow)
    (rest : List HSRow) (old_key : HSKey)
    (hrows : m.rows = last :: rest)
    (hlook : dictGet m.last_host_state sender.id = some old_key) :
    (last.time = now →
      hssOnHostStateChanged m now sender = some
        { last_host_state :=
            dictSet m.last_host_state sender.id (getKeyFromState sender.state)
          rows := ((last.add old_key (-1)).add (getKeyFromState sender.state) 1) :: rest })
    ∧ (last.time ≠ now →
      hssOnHostStateChanged m now sender = some
        { last_host_state :=
            dictSet m.last_host_state sender.id (getKeyFromState sender.state)
          rows := (({ last with time := now }).add old_key (-1)).add
              (getKeyFromState sender.state) 1 :: last :: rest })
    ∧ c6m0.rows.length = 1
    ∧ c6Final.map (fun mf => (mf.rows.length,
        mf.rows.head?.map (fun r => (r.time, r.nb_idle, r.nb_computing))))
        = some (2, some (5, 0, 2)) := by
  refine ⟨?_, ?_, by decide, by decide⟩
  · intro heq
    simp [hssOnHostStateChanged, hrows, hlook, heq]
  · intro hne
    simp [hssOnHostStateChanged, hrows, hlook, hne]

/-- Witness for C6: the first transition of the scenario, at the fresh
timestamp 5, appends one copied row and applies both bucket deltas. -/
theorem hss_spec_witness :
    hssOnHostStateChanged c6m0 5 (Host.mk 0 none HostState.COMPUTING none) = some
      { last_host_state := dictSet c6m0.last_host_state 0
          (getKeyFromState HostState.COMPUTING)
        rows := ((HSRow.mk 5 0 0 0 2 0).add HSKey.nb_idle (-1)).add
            (getKeyFromState HostState.COMPUTING) 1 :: [HSRow.mk 0 0 0 0 2 0] } :=
  (hss_spec c6m0 5 (Host.mk 0 none HostState.COMPUTING none) (HSRow.mk 0 0 0 0 2 0) []
      HSKey.nb_idle (by decide) (by decide)).2.1 (by decide)

/-- A lookup hit is a member of the association list. -/
theorem dictGet_mem {α : Type} (l : List (Nat × α)) (k : Nat) (v : α)
    (h : dictGet l k = some v) : (k, v) ∈ l := by
  induction l with
  | nil => simp [dictGet] at h
  | cons p t ih =>
    obtain ⟨k2, v2⟩ := p
    by_cases he : k2 = k
    · subst he
      simp [dictGet] at h
      subst h
      exact List.mem_cons_self _ _
    · simp only [dictGet, if_neg he] at h
      exact List.mem_cons_of_mem _ (ih h)

/-- Membership in an updated association list comes from the update or
from the original list. -/
theorem mem_dictSet {α : Type} (l : List (Nat × α)) (k : Nat) (v : α) (p : Nat × α)
    (hp : p ∈ dictSet l k v) : p = (k, v) ∨ p ∈ l := by
  induction l with
  | nil =>
    simp [dictSet] at hp
    exact Or.inl hp
  | cons q t ih =>
    obtain ⟨k2, v2⟩ := q
    by_cases he : k2 = k
    · have hdef : dictSet ((k2, v2) :: t) k v = (k, v) :: t := by
        simp [dictSet, he]
      rw [hdef] at hp
      rcases List.mem_cons.mp hp with h1 | h1
      · exact Or.inl h1
      · exact Or.inr (List.mem_cons_of_mem _ h1)
    · have hdef : dictSet ((k2, v2) :: t) k v = (k2, v2) :: dictSet t k v := by
        simp [dictSet, he]
      rw [hdef] at hp
      rcases List.mem_cons.mp hp with h1 | h1
      · exact Or.inr (by simp [h1])
      · rcases ih h1 with h2 | h2
        · exact Or.inl h2
        · exact Or.inr (List.mem_cons_of_mem _ h2)

/-- Reading back the key just written. -/
theorem dictGet_dictSet_self {α : Type} (l : List (Nat × α)) (k : Nat) (v : α) :
    dictGet (dictSet l k v) k = some v := by
  induction l with
  | nil => simp [dictSet, dictGet]
  | cons q t ih =>
    obtain ⟨k2, v2⟩ := q
    by_cases he : k2 = k
    · subst he
      simp [dictSet, dictGet]
    · simp [dictSet, dictGet, he, ih]

/-- Writing one key leaves every other key unchanged. -/
theorem dictGet_dictSet_ne {α : Type} (l : List (Nat × α)) (k k2 : Nat) (v : α)
    (h : k2 ≠ k) : dictGet (dictSet l k v) k2 = dictGet l k2 := by
  induction l with
  | nil => simp [dictSet, dictGet, Ne.symm h]
  | cons q t ih =>
    obtain ⟨k3, v3⟩ := q
    by_cases he : k3 = k
    · subst he
      simp [dictSet, dictGet, Ne.symm h]
    · simp [dictSet, dictGet, he, ih]

/-- The snapshot invariant is monotone in the time bound. -/
theorem ceSnapInv_mono (ls : List (Nat × CESnap)) (t t2 : ℚ) (h : t ≤ t2)
    (hs : ceSnapInv ls t) : ceSnapInv ls t2 :=
  fun p hp => ⟨le_trans (hs p hp).1 h, (hs p hp).2⟩

/-- The per-host loop preserves the snapshot invariant and never
decreases the accumulated energy. -/
theorem ceFoldHosts_inv (now : ℚ) (hs : List Host) :
    ∀ (ls : List (Nat × CESnap)) (ce wm ep : ℚ)
      (ls2 : List (Nat × CESnap)) (ce2 wm2 ep2 : ℚ),
      ceSnapInv ls now →
      (∀ h ∈ hs, 0 ≤ h.power.getD 0) →
      ceFoldHosts now hs ls ce wm ep = some (ls2, ce2, wm2, ep2) →
      ceSnapInv ls2 now ∧ ce ≤ ce2 := by
  induction hs with
  | nil =>
    intro ls ce wm ep ls2 ce2 wm2 ep2 hsnap hpow heq
    simp only [ceFoldHosts, Option.some_inj, Prod.mk.injEq] at heq
    obtain ⟨h1, h2, h3, h4⟩ := heq
    subst h1
    subst h2
    exact ⟨hsnap, le_refl _⟩
  | cons h t ih =>
    intro ls ce wm ep ls2 ce2 wm2 ep2 hsnap hpow heq
    simp only [ceFoldHosts] at heq
    cases hg : dictGet ls h.id with
    | none =>
      rw [hg] at heq
      simp at heq
    | some s =>
      rw [hg] at heq
      have hsmem := hsnap _ (dictGet_mem _ _ _ hg)
      have hsnap2 : ceSnapInv (dictSet ls h.id (CESnap.mk now h.power h.pstate)) now := by
        intro p hp
        rcases mem_dictSet _ _ _ _ hp with hp1 | hp1
        · subst hp1
          exact ⟨le_refl now, hpow h (List.mem_cons_self h t)⟩
        · exact hsnap p hp1
      have hpow2 : ∀ h2 ∈ t, 0 ≤ h2.power.getD 0 :=
        fun h2 hh => hpow h2 (List.mem_cons_of_mem _ hh)
      have hrest := ih _ _ _ _ _ _ _ _ hsnap2 hpow2 heq
      refine ⟨hrest.1, le_trans ?_ hrest.2⟩
      have h1 : 0 ≤ s.power.getD 0 * (now - s.t_start) :=
        mul_nonneg hsmem.2 (by linarith [hsmem.1])
      linarith

/-- The per-host loop does not touch keys outside the host list. -/
theorem ceFoldHosts_get_notin (now : ℚ) (hs : List Host) :
    ∀ (ls : List (Nat × CESnap)) (ce wm ep : ℚ)
      (ls2 : List (Nat × CESnap)) (ce2 wm2 ep2 : ℚ) (k : Nat),
      k ∉ hs.map Host.id →
      ceFoldHosts now hs ls ce wm ep = some (ls2, ce2, wm2, ep2) →
      dictGet ls2 k = dictGet ls k := by
  induction hs with
  | nil =>
    intro ls ce wm ep ls2 ce2 wm2 ep2 k hk heq
    simp only [ceFoldHosts, Option.some_inj, Prod.mk.injEq] at heq
    obtain ⟨h1, h2, h3, h4⟩ := heq
    subst h1
    rfl
  | cons h t ih =>
    intro ls ce wm ep ls2 ce2 wm2 ep2 k hk heq
    simp only [ceFoldHosts] at heq
    cases hg : dictGet ls h.id with
    | none =>
      rw [hg] at heq
      simp at heq
    | some s =>
      rw [hg] at heq
      simp only [List.map_cons, List.mem_cons, not_or] at hk
      rw [ih _ _ _ _ _ _ _ _ _ hk.2 heq]
      exact dictGet_dictSet_ne _ _ _ _ hk.1

/-- After the per-host loop, every host of the platform carries the
fresh snapshot (now, power, pstate). -/
theorem ceFoldHosts_updates (now : ℚ) (hs : List Host) :
    ∀ (ls : List (Nat × CESnap)) (ce wm ep : ℚ)
      (ls2 : List (Nat × CESnap)) (ce2 wm2 ep2 : ℚ),
      (hs.map Host.id).Nodup →
      ceFoldHosts now hs ls ce wm ep = some (ls2, ce2, wm2, ep2) →
      ∀ h ∈ hs, dictGet ls2 h.id = some (CESnap.mk now h.power h.pstate) := by
  induction hs with
  | nil =>
    intro ls ce wm ep ls2 ce2 wm2 ep2 hnd heq h hh
    simp at hh
  | cons h t ih =>
    intro ls ce wm ep ls2 ce2 wm2 ep2 hnd heq h2 hh2
    simp only [ceFoldHosts] at heq
    cases hg : dictGet ls h.id with
    | none =>
      rw [hg] at heq
      simp at heq
    | some s =>
      rw [hg] at heq
      simp only [List.map_cons, List.nodup_cons] at hnd
      rcases List.mem_cons.mp hh2 with rfl | hmem
      · rw [ceFoldHosts_get_notin now t _ _ _ _ _ _ _ _ _ hnd.1 heq]
        exact dictGet_dictSet_self _ _ _
      · exact ih _ _ _ _ _ _ _ _ hnd.2 heq h2 hmem

/-- Updating a key outside the host list does not change the summed
energy delta. -/
theorem ceEnergyDelta_set_ne (now : ℚ) (hs : List Host) :
    ∀ (ls : List (Nat × CESnap)) (k : Nat) (v : CESnap),
      k ∉ hs.map Host.id →
      ceEnergyDelta now hs (dictSet ls k v) = ceEnergyDelta now hs ls := by
  induction hs with
  | nil =>
    intro ls k v hk
    rfl
  | cons h t ih =>
    intro ls k v hk
    simp only [List.map_cons, List.mem_cons, not_or] at hk
    simp only [ceEnergyDelta, List.map_cons, List.sum_cons] at ih ⊢
    rw [dictGet_dictSet_ne ls k h.id v (Ne.symm hk.1), ih ls k v hk.2]

/-- The accumulated energy of the per-host loop is the entry value
plus the summed per-host delta. -/
theorem ceFoldHosts_energy (now : ℚ) (hs : List Host) :
    ∀ (ls : List (Nat × CESnap)) (ce wm ep : ℚ)
      (ls2 : List (Nat × CESnap)) (ce2 wm2 ep2 : ℚ),
      (hs.map Host.id).Nodup →
      ceFoldHosts now hs ls ce wm ep = some (ls2, ce2, wm2, ep2) →
      ce2 = ce + ceEnergyDelta now hs ls := by
  induction hs with
  | nil =>
    intro ls ce wm ep ls2 ce2 wm2 ep2 hnd heq
    simp only [ceFoldHosts, Option.some_inj, Prod.mk.injEq] at heq
    obtain ⟨h1, h2, h3, h4⟩ := heq
    subst h2
    simp [ceEnergyDelta]
  | cons h t ih =>
    intro ls ce wm ep ls2 ce2 wm2 ep2 hnd heq
    simp only [ceFoldHosts] at heq
    cases hg : dictGet ls h.id with
    | none =>
      rw [hg] at heq
      simp at heq
    | some s =>
      rw [hg] at heq
      simp only [List.map_cons, List.nodup_cons] at hnd
      have hce := ih _ _ _ _ _ _ _ _ hnd.2 heq
      rw [hce, ceEnergyDelta_set_ne now t ls h.id (CESnap.mk now h.power h.pstate) hnd.1]
      simp only [ceEnergyDelta, List.map_cons, List.sum_cons, hg]
      ring

/-- One `__update_info` call keeps the snapshot invariant and prepends
a nonnegative increment to the energy series. -/
theorem ceUpdateInfo_step (m : CEMonitor) (now : ℚ) (platform : List Host) (tag : String)
    (m2 : CEMonitor)
    (hsnap : ceSnapInv m.last_state now)
    (hpow : ∀ h ∈ platform, 0 ≤ h.power.getD 0)
    (heq : ceUpdateInfo m now platform tag = some m2) :
    ceSnapInv m2.last_state now
    ∧ ∃ ce, 0 ≤ ce ∧ m2.energy = (ce + m.energy.headD 0) :: m.energy := by
  simp only [ceUpdateInfo] at heq
  cases hf : ceFoldHosts now platform m.last_state 0 0 0 with
  | none =>
    rw [hf] at heq
    simp at heq
  | some r =>
    obtain ⟨ls, ce, wm, ep⟩ := r
    rw [hf] at heq
    simp only [Option.some_inj] at heq
    subst heq
    have hinv := ceFoldHosts_inv now platform _ _ _ _ _ _ _ _ hsnap hpow hf
    exact ⟨hinv.1, ce, hinv.2, rfl⟩

/-- Prepending a value at least the head keeps the newest-first energy
series sorted. -/
theorem chain_cons_energy (x : ℚ) (l : List ℚ) (hx : l.headD 0 ≤ x)
    (hl : List.Chain' (fun a b => b ≤ a) l) :
    List.Chain' (fun a b => b ≤ a) (x :: l) := by
  cases l with
  | nil => simp
  | cons y t =>
    rw [List.chain'_cons]
    exact ⟨by simpa using hx, hl⟩

/-- Running any event sequence with non-decreasing times and
nonnegative powers keeps the newest-first energy series sorted. -/
theorem ceRun_chain (evs : List CEEvent) :
    ∀ (m : CEMonitor) (t : ℚ) (m2 : CEMonitor),
      ceSnapInv m.last_state t →
      List.Chain' (fun a b => b ≤ a) m.energy →
      List.Chain' (· ≤ ·) (t :: evs.map CEEvent.time) →
      (∀ e ∈ evs, ∀ h ∈ e.platform, 0 ≤ h.power.getD 0) →
      ceRun m evs = some m2 →
      List.Chain' (fun a b => b ≤ a) m2.energy := by
  induction evs with
  | nil =>
    intro m t m2 hsnap hchain htime hpow hrun
    simp only [ceRun, Option.some_inj] at hrun
    subst hrun
    exact hchain
  | cons e es ih =>
    intro m t m2 hsnap hchain htime hpow hrun
    simp only [ceRun] at hrun
    cases hu : ceUpdateInfo m e.time e.platform e.tag with
    | none =>
      rw [hu] at hrun
      simp at hrun
    | some mm =>
      rw [hu] at hrun
      rw [List.map_cons, List.chain'_cons] at htime
      obtain ⟨hte, htime2⟩ := htime
      have hsnap2 : ceSnapInv m.last_state e.time := ceSnapInv_mono _ _ _ hte hsnap
      have hpowe : ∀ h ∈ e.platform, 0 ≤ h.power.getD 0 :=
        hpow e (List.mem_cons_self _ _)
      obtain ⟨hsnap3, ce, hce, hen⟩ := ceUpdateInfo_step m e.time e.platform e.tag mm
        hsnap2 hpowe hu
      have hchain2 : List.Chain' (fun a b => b ≤ a) mm.energy := by
        rw [hen]
        exact chain_cons_energy _ _ (by linarith) hchain
      exact ih mm e.time m2 hsnap3 hchain2 htime2
        (fun e2 he2 => hpow e2 (List.mem_cons_of_mem _ he2)) hrun

/-- One `__update_info` call prepends exactly the carried-forward
cumulative value plus the per-host delta and refreshes every platform
snapshot. -/
theorem ceUpdateInfo_last_state (m : CEMonitor) (now : ℚ) (platform : List Host)
    (tag : String) (m2 : CEMonitor)
    (hnd : (platform.map Host.id).Nodup)
    (heq : ceUpdateInfo m now platform tag = some m2) :
    m2.energy = (ceEnergyDelta now platform m.last_state + m.energy.headD 0) :: m.energy
    ∧ ∀ h ∈ platform, dictGet m2.last_state h.id = some (CESnap.mk now h.power h.pstate) := by
  simp only [ceUpdateInfo] at heq
  cases hf : ceFoldHosts now platform m.last_state 0 0 0 with
  | none =>
    rw [hf] at heq
    simp at heq
  | some r =>
    obtain ⟨ls, ce, wm, ep⟩ := r
    rw [hf] at heq
    simp only [Option.some_inj] at heq
    subst heq
    constructor
    · have hce := ceFoldHosts_energy now platform _ _ _ _ _ _ _ _ hnd hf
      simp [hce]
    · intro h hh
      exact ceFoldHosts_updates now platform _ _ _ _ _ _ _ _ hnd hf h hh

/-- Claim C7: for every sequence of job-started, job-completed and
host events with non-decreasing current time and nonnegative host
powers, the recorded energy series is monotonically non-decreasing —
each new row carries the previous cumulative value forward and adds
elapsed × (power or 0) per host — and every platform host has its
last-observed snapshot replaced by (now, power, pstate) on every call,
regardless of which entity triggered it. -/
theorem ce_monitor_spec :
    (∀ (t0 : ℚ) (platform0 : List Host) (evs : List CEEvent) (m2 : CEMonitor),
      (∀ h ∈ platform0, 0 ≤ h.power.getD 0) →
      List.Chain' (· ≤ ·) (t0 :: evs.map CEEvent.time) →
      (∀ e ∈ evs, ∀ h ∈ e.platform, 0 ≤ h.power.getD 0) →
      ceRun (ceOnSimulationBegins t0 platform0) evs = some m2 →
      List.Chain' (fun a b => b ≤ a) m2.energy)
    ∧ (∀ (m : CEMonitor) (now : ℚ) (platform : List Host) (tag : String) (m2 : CEMonitor),
      (platform.map Host.id).Nodup →
      ceUpdateInfo m now platform tag = some m2 →
      m2.energy = (ceEnergyDelta now platform m.last_state + m.energy.headD 0) :: m.energy
      ∧ ∀ h ∈ platform, dictGet m2.last_state h.id
          = some (CESnap.mk now h.power h.pstate)) := by
  constructor
  · intro t0 platform0 evs m2 hpow0 htime hpow hrun
    have hsnap0 : ceSnapInv (ceOnSimulationBegins t0 platform0).last_state t0 := by
      intro p hp
      simp only [ceOnSimulationBegins, List.mem_map] at hp
      obtain ⟨h, hh, rfl⟩ := hp
      exact ⟨le_refl _, hpow0 h hh⟩
    exact ceRun_chain evs _ t0 m2 hsnap0 (by simp [ceOnSimulationBegins]) htime hpow hrun
  · intro m now platform tag m2 hnd heq
    exact ceUpdateInfo_last_state m now platform tag m2 hnd heq

/-- Witness for C7: one host at 2 W, one job-started event at time 3,
cumulative energy 6 J, snapshot refreshed to time 3. -/
theorem ce_monitor_spec_witness :
    List.Chain' (fun a b => b ≤ a) c7m1.energy
    ∧ c7m1.energy
        = (ceEnergyDelta 3 [c7Host] c7m0.last_state + c7m0.energy.headD 0) :: c7m0.energy
    ∧ dictGet c7m1.last_state c7Host.id = some (CESnap.mk 3 c7Host.power c7Host.pstate) := by
  have hupd : ceUpdateInfo c7m0 3 [c7Host] JOB_STARTED_TYPE = some c7m1 := by
    norm_num [ceUpdateInfo, ceFoldHosts, c7m0, c7m1, c7Host, ceOnSimulationBegins,
      dictGet, dictSet]
  have hrun : ceRun c7m0 [CEEvent.mk 3 [c7Host] JOB_STARTED_TYPE] = some c7m1 := by
    simp [ceRun, hupd]
  refine ⟨ce_monitor_spec.1 0 [c7Host] [CEEvent.mk 3 [c7Host] JOB_STARTED_TYPE] c7m1
      (by decide) (by norm_num [List.chain'_cons, List.chain'_singleton]) (by decide)
      hrun, ?_, ?_⟩
  · exact (ce_monitor_spec.2 c7m0 3 [c7Host] JOB_STARTED_TYPE c7m1 (by decide) hupd).1
  · exact (ce_monitor_spec.2 c7m0 3 [c7Host] JOB_STARTED_TYPE c7m1 (by decide) hupd).2
      c7Host (by decide)

end BatsimPy
